import Mathlib

set_option maxHeartbeats 1000000

/-!
Verification development for the inference-pipeline core in
`runtime/core/pipeline.cc`.  The definitions below are a shallow embedding of
that translation unit: the executor, tokenizer and sampler collaborators are
modelled as deterministic traces (functions of the decode-step index), status
objects are a code/message pair, the observer is modelled by the list of events
it receives, and the decode loop is a fuel-indexed recursion mirroring the
`while (true)` loop line by line.
-/

namespace Pipeline

/-- Status codes of the absl statuses produced by the pipeline. -/
inductive StatusCode
  | ok
  | cancelled
  | invalidArgument
  | internal
  | unknown
  deriving DecidableEq, Repr

/-- An absl status: a code together with its message. -/
structure AbslStatus where
  code : StatusCode
  message : String
  deriving DecidableEq, Repr

/-- `absl::CancelledError("Process cancelled.")` (pipeline.cc lines 281-283). -/
def cancelledError : AbslStatus :=
  ⟨StatusCode.cancelled, "Process cancelled."⟩

/-- `absl::InternalError("Maximum kv-cache size reached.")` (line 338). -/
def kvCacheError : AbslStatus :=
  ⟨StatusCode.internal, "Maximum kv-cache size reached."⟩

/-- A per-candidate score value.  The C++ code uses `float`; the embedding
idealizes the arithmetic as exact rationals, with negative infinity
(`-std::numeric_limits<float>::infinity()`, line 352) as a separate
constructor. -/
inductive ScoreVal
  | negInf
  | val (q : ℚ)
  deriving DecidableEq, Repr

/-- `Responses`: per-candidate texts and scores.  `Responses(n)` in the C++
code builds `n` empty texts and `n` zero scores. -/
structure Responses where
  texts : List String
  scores : List ScoreVal
  deriving DecidableEq, Repr

/-- The `Responses(n)` constructor. -/
def Responses.make (n : Nat) : Responses :=
  ⟨List.replicate n "", List.replicate n (ScoreVal.val 0)⟩

/-- Events received by the streaming `InferenceObservable` observer. -/
inductive ObserverEvent
  | onNext (r : Responses)
  | onError (s : AbslStatus)
  | onDone
  deriving DecidableEq, Repr

/-- Whether an observer event is an `OnNext` call. -/
def ObserverEvent.isNextEv : ObserverEvent → Bool
  | ObserverEvent.onNext _ => true
  | _ => false

/-- Whether an observer event is an `OnError` call. -/
def ObserverEvent.isErrEv : ObserverEvent → Bool
  | ObserverEvent.onError _ => true
  | _ => false

/-- Whether an observer event is an `OnDone` call. -/
def ObserverEvent.isDoneEv : ObserverEvent → Bool
  | ObserverEvent.onDone => true
  | _ => false

/-! ### StopTokenDetector

Modelled from the spec: the implementation of
`runtime/components/stop_token_detector.h` is not among the sources here (only
its use in `pipeline.cc` is), so the detector is modelled from the spec's
§4.1: per candidate it keeps the longest currently-matched prefix of any
configured stop sequence, extends or falls back to the longest suffix that is
still a prefix of some stop sequence on each token, freezes once done, and
reports `max_partial_stop_len(i)` as the current matched-prefix length. -/

/-- Per-candidate detector state: `done` plus the longest currently-matched
stop-sequence prefix. -/
structure CandState where
  done : Bool
  matched : List Int
  deriving DecidableEq, Repr

/-- Detector state: the configured stop sequences plus one `CandState` per
candidate. -/
structure DetectorState where
  stops : List (List Int)
  cands : List CandState
  deriving DecidableEq, Repr

/-- All suffixes of `l`, longest first. -/
def suffixes (l : List Int) : List (List Int) :=
  (List.range (l.length + 1)).map (fun k => l.drop k)

/-- Modelled from the spec: advance one candidate's match state by one token.
A done candidate is frozen; otherwise the longest suffix of
`matched ++ [tok]` that is a prefix of some stop sequence becomes the new
match, and a full match sets `done`. -/
def advanceCand (stops : List (List Int)) (c : CandState) (tok : Int) : CandState :=
  if c.done then c
  else
    let buf := c.matched ++ [tok]
    let s := ((suffixes buf).filter
      (fun suf => stops.any (fun stop => suf.isPrefixOf stop))).headD []
    if stops.contains s then ⟨true, s⟩ else ⟨false, s⟩

/-- `StopTokenDetector::ProcessTokens`: advance every candidate by its raw
next token. -/
def DetectorState.processTokens (d : DetectorState) (toks : List Int) : DetectorState :=
  ⟨d.stops, List.zipWith (advanceCand d.stops) d.cands toks⟩

/-- `StopTokenDetector::AllDone`. -/
def DetectorState.allDone (d : DetectorState) : Bool :=
  d.cands.all (fun c => c.done)

/-- `StopTokenDetector::GetStopTokensFound()[i]`. -/
def DetectorState.stopFound (d : DetectorState) (i : Nat) : Bool :=
  ((d.cands.get? i).map (fun c => c.done)).getD false

/-- `StopTokenDetector::MaxPartialStopTokenLength(i)`. -/
def DetectorState.maxPartialStopLen (d : DetectorState) (i : Nat) : Nat :=
  ((d.cands.get? i).map (fun c => c.matched.length)).getD 0

/-! ### ShouldStop (pipeline.cc lines 65-82) -/

/-- `ShouldStop`: whether the decoding loop should stop, translated clause by
clause from lines 68-80. -/
def shouldStop (hitStopTokens : Bool) (benchmarkDecodeTokenCount : Nat)
    (numDecodedSteps : Nat) (currentStep : Nat) (maxNumTokens : Nat) : Bool :=
  if hitStopTokens ∧ benchmarkDecodeTokenCount = 0 then true
  else if benchmarkDecodeTokenCount > 0 ∧
      numDecodedSteps ≥ benchmarkDecodeTokenCount then true
  else if currentStep ≥ maxNumTokens then true
  else false

/-! ### DecodeOneStep (pipeline.cc lines 86-250) -/

/-- The mutable state of a `DecodeOneStep` object: its by-value copy of the
stop-token detector, the per-candidate pending BPE token ids
(`bpe_partial_token_ids_`), the per-candidate deferred-fragment queues
(`pending_stop_tokens_`, front of the list = front of the queue), and the
per-candidate result text of the last step (`result_text_`). -/
structure StepState where
  detector : DetectorState
  bpePartial : List (List Int)
  pending : List (List String)
  resultText : List String
  deriving DecidableEq, Repr

/-- The `DecodeOneStep` constructor state (lines 99-110): empty scratch for
`n` candidates and a copy of the caller's detector. -/
def StepState.init (n : Nat) (det : DetectorState) : StepState :=
  ⟨det, List.replicate n [], List.replicate n [], List.replicate n ""⟩

/-- The per-candidate body of the post-processing loop, pipeline.cc lines
140-166.  Arguments: the decoded text for the merged token ids (`none` when
`Tokenizer::IsIncompleteBpeSequence` holds), the merged token ids, the
detector's stop-found flag and `MaxPartialStopTokenLength` for this candidate
(both after `ProcessTokens`), and the candidate's current BPE scratch and
deferred-fragment queue.  Returns the new BPE scratch, the new queue, and the
step's `result_text_[i]`. -/
def processCandidate (decoded : Option String) (mergedIds : List Int)
    (stopFound : Bool) (maxLength : Nat) (bpe : List Int) (queue : List String) :
    List Int × List String × String :=
  match decoded with
  | none => (mergedIds, queue, "")
  | some txt =>
    if stopFound then (bpe, queue, "")
    else
      let q1 := if 0 < maxLength then queue ++ [txt] else queue
      let k := q1.length - maxLength
      let out := String.join (q1.take k)
      let q2 := q1.drop k
      let out2 := if maxLength = 0 then out ++ txt else out
      ([], q2, out2)

/-! ### Prefill (pipeline.cc lines 361-390) -/

/-- Inputs and collaborator behaviour of one `Prefill` call: the prompt
token-id buffer, the executor's `max_num_tokens`, the result of
`executor.Prefill`, and the benchmark timer (`none` = no benchmark info,
`some r` = benchmark present with `TimePrefillTurnEnd` returning `r`). -/
structure PrefillEnv where
  tokenIds : List Int
  maxNumTokens : Nat
  executorRes : Except AbslStatus Unit
  bench : Option (Option AbslStatus)

/-- The too-long `InvalidArgument` message of lines 371-374. -/
def tooLongMsg (numTokens maxNumTokens : Nat) : String :=
  "Input token ids are too long. Exceeding the maximum number of tokens " ++
    "allowed: " ++ toString numTokens ++ " >= " ++ toString maxNumTokens

/-- Whether the benchmark timer of a `Prefill` call succeeds (vacuously true
when no benchmark info is present). -/
def benchPrefillOk (env : PrefillEnv) : Bool :=
  match env.bench with
  | some (some _) => false
  | _ => true

/-- `Prefill` (lines 361-390): check the length bound, check non-emptiness,
record the last token id, run the executor's prefill, mark the benchmark
turn end, and return the last prompt token id. -/
def prefill (env : PrefillEnv) : Except AbslStatus Int :=
  let numTokens := env.tokenIds.length
  if env.maxNumTokens ≤ numTokens then
    Except.error ⟨StatusCode.invalidArgument, tooLongMsg numTokens env.maxNumTokens⟩
  else if env.tokenIds.isEmpty then
    Except.error ⟨StatusCode.internal, "Input token ids are empty."⟩
  else
    let lastTokenId := env.tokenIds.getLastD 0
    match env.executorRes with
    | Except.error e => Except.error e
    | Except.ok _ =>
      match env.bench with
      | some (some e) => Except.error e
      | _ => Except.ok lastTokenId

/-- The status code of a pipeline result, `none` when it is OK. -/
def statusCodeOf {α : Type} : Except AbslStatus α → Option StatusCode
  | Except.error e => some e.code
  | Except.ok _ => none

/-! ### DecodeLoop (pipeline.cc lines 252-357)

The collaborators are deterministic traces: `rawToks t` is the per-candidate
next token produced by `DecodeAndSample` plus `TensorBufferToTokenIds` at the
`t`-th decode step (0-based), or the error any of those calls returns;
`decodeText` is the tokenizer's per-candidate `TokenIdsToTexts` on a merged id
sequence (`none` = `IsIncompleteBpeSequence`); `scoresAt t` is the sampler's
per-candidate score buffer after step `t`; `currentStep t` is
`executor.GetCurrentStep()` after `t` completed decode steps; `cancelAt` is
the iteration index from which `cancelled->load()` reads true (`none` = null
pointer or never set, monotonic by construction). -/

/-- Benchmark info: the `num_decode_tokens` cap plus the results of
`TimeDecodeTurnStart` and `TimeDecodeTurnEnd` (which the spec's §4.6 allows to
fail when called in an inconsistent order). -/
structure BenchmarkInfo where
  numDecodeTokens : Nat
  startErr : Option AbslStatus
  endErr : Option AbslStatus
  deriving DecidableEq, Repr

/-- Environment of one `DecodeLoop` call. -/
structure LoopEnv where
  n : Nat
  rawToks : Nat → Except AbslStatus (List Int)
  decodeText : List Int → Option String
  scoresAt : Nat → Nat → ℚ
  currentStep : Nat → Nat
  maxNumTokens : Nat
  bench : Option BenchmarkInfo
  isStreaming : Bool
  isCustomSampling : Bool
  cancelAt : Option Nat

/-- The `cancelled->load()` check at the top of iteration `iter`. -/
def isCancelled (env : LoopEnv) (iter : Nat) : Bool :=
  match env.cancelAt with
  | some k => k ≤ iter
  | none => false

/-- `DecodeOneStep::Run` (lines 117-174) at step index `t`: produce the next
tokens, merge pending BPE ids, advance the detector on the raw tokens, decode
the merged ids to text and run the per-candidate post-processing of lines
140-166.  Returns `AllDone` together with the new step state. -/
def runOneStep (env : LoopEnv) (st : StepState) (t : Nat) :
    Except AbslStatus (Bool × StepState) :=
  match env.rawToks t with
  | Except.error e => Except.error e
  | Except.ok nextToks =>
    let tokenIds := nextToks.map (fun tk => [tk])
    let merged := List.zipWith (fun p q => p ++ q) st.bpePartial tokenIds
    let det := st.detector.processTokens nextToks
    let res := (List.range env.n).map (fun i =>
      processCandidate (env.decodeText (merged.getD i [])) (merged.getD i [])
        (det.stopFound i) (det.maxPartialStopLen i)
        (st.bpePartial.getD i []) (st.pending.getD i []))
    Except.ok (det.allDone,
      { detector := det
        bpePartial := res.map (fun r => r.1)
        pending := res.map (fun r => r.2.1)
        resultText := res.map (fun r => r.2.2) })

/-- `absl::StrReplaceAll(output_text, \x7b\x7b"▁", " "\x7d\x7d)` (line 305):
the metaspace marker is a single character, so the replacement is a character
map. -/
def normalizeText (s : String) : String :=
  String.mk (s.data.map (fun c => if c = '▁' then ' ' else c))

/-- Instrumentation record for one completed loop iteration: the values the
loop branched on at that step.  `outputs` is `result_text_` for the step,
`stepIndex` the 0-based step index, `anyUpdates` the `any_updates` flag,
`allDoneFlag` the step's `AllDone` return, `emittedNext` whether
`observer.OnNext` was called for the step, and `stoppedHere` whether
`ShouldStop` fired at the step. -/
structure StepInfo where
  anyUpdates : Bool
  allDoneFlag : Bool
  emittedNext : Bool
  stoppedHere : Bool
  stepIndex : Nat
  outputs : List String
  deriving DecidableEq, Repr

instance instDecEqExcept {ε α : Type} [DecidableEq ε] [DecidableEq α] :
    DecidableEq (Except ε α) := fun a b =>
  match a, b with
  | Except.error e, Except.error f =>
    if h : e = f then Decidable.isTrue (congrArg Except.error h)
    else Decidable.isFalse (fun hh => h (Except.error.inj hh))
  | Except.error _, Except.ok _ => Decidable.isFalse (fun hh => Except.noConfusion hh)
  | Except.ok _, Except.error _ => Decidable.isFalse (fun hh => Except.noConfusion hh)
  | Except.ok a, Except.ok b =>
    if h : a = b then Decidable.isTrue (congrArg Except.ok h)
    else Decidable.isFalse (fun hh => h (Except.ok.inj hh))

/-- Result of one `DecodeLoop` call: the events the observer received (in
order), the returned status-or-responses, the number of completed decode
steps, the per-iteration instrumentation log, and the final state of the
loop's `DecodeOneStep` object. -/
structure LoopResult where
  events : List ObserverEvent
  result : Except AbslStatus Responses
  numSteps : Nat
  stepLog : List StepInfo
  finalStep : StepState
  deriving DecidableEq, Repr

/-- The tail of `DecodeLoop` after the loop (lines 335-356): streaming emits
the terminal event and returns `Responses(0)`; batch finalizes the mean
scores for custom sampling. -/
def finalizeTail (env : LoopEnv) (st : StepState) (s : Nat)
    (finTexts : Nat → String) (acc : Nat → ℚ) (cnt : Nat → Nat)
    (events : List ObserverEvent) (log : List StepInfo) : LoopResult :=
  if env.isStreaming then
    if env.maxNumTokens ≤ env.currentStep s then
      ⟨events ++ [ObserverEvent.onError kvCacheError],
        Except.ok (Responses.make 0), s, log, st⟩
    else
      ⟨events ++ [ObserverEvent.onDone], Except.ok (Responses.make 0), s, log, st⟩
  else
    let scores := if env.isCustomSampling then
        (List.range env.n).map (fun j =>
          if 0 < cnt j then ScoreVal.val (acc j / (cnt j : ℚ)) else ScoreVal.negInf)
      else (List.range env.n).map (fun _ => ScoreVal.val 0)
    ⟨events, Except.ok ⟨(List.range env.n).map finTexts, scores⟩, s, log, st⟩

/-- The loop epilogue (lines 330-356): `TimeDecodeTurnEnd` first (its error
is returned without any observer event), then `finalizeTail`. -/
def finalizeLoop (env : LoopEnv) (st : StepState) (s : Nat)
    (finTexts : Nat → String) (acc : Nat → ℚ) (cnt : Nat → Nat)
    (events : List ObserverEvent) (log : List StepInfo) : LoopResult :=
  match env.bench with
  | some b =>
    match b.endErr with
    | some e => ⟨events, Except.error e, s, log, st⟩
    | none => finalizeTail env st s finTexts acc cnt events log
  | none => finalizeTail env st s finTexts acc cnt events log

/-- The `any_updates` flag of the per-candidate loop (lines 292-302). -/
def anyUpdOf (outputs : List String) : Bool :=
  outputs.any (fun t => t ≠ "")

/-- The per-step `step_responses` built at lines 291-310 (texts and scores
are only filled in streaming mode, for candidates with non-empty output). -/
def stepRespOf (env : LoopEnv) (s : Nat) (outputs : List String) : Responses :=
  ⟨(List.range env.n).map (fun j =>
      if env.isStreaming ∧ outputs.getD j "" ≠ "" then
        normalizeText (outputs.getD j "") else ""),
    (List.range env.n).map (fun j =>
      if env.isStreaming ∧ env.isCustomSampling ∧ outputs.getD j "" ≠ "" then
        ScoreVal.val (env.scoresAt s j) else ScoreVal.val 0)⟩

/-- The batch-mode text accumulation of line 312 (per candidate, appended only
for non-empty output). -/
def finTextsNext (env : LoopEnv) (outputs : List String) (finTexts : Nat → String) :
    Nat → String := fun j =>
  if ¬ env.isStreaming ∧ outputs.getD j "" ≠ "" then
    finTexts j ++ normalizeText (outputs.getD j "") else finTexts j

/-- The batch-mode score accumulation of line 314. -/
def accNext (env : LoopEnv) (s : Nat) (outputs : List String) (acc : Nat → ℚ) :
    Nat → ℚ := fun j =>
  if ¬ env.isStreaming ∧ env.isCustomSampling ∧ outputs.getD j "" ≠ "" then
    acc j + env.scoresAt s j else acc j

/-- The batch-mode token counting of line 315. -/
def cntNext (env : LoopEnv) (outputs : List String) (cnt : Nat → Nat) :
    Nat → Nat := fun j =>
  if ¬ env.isStreaming ∧ env.isCustomSampling ∧ outputs.getD j "" ≠ "" then
    cnt j + 1 else cnt j

/-- The `OnNext` emission condition of line 320:
`is_streaming && any_updates && !*all_done`. -/
def emitOf (env : LoopEnv) (allDone : Bool) (outputs : List String) : Bool :=
  env.isStreaming && anyUpdOf outputs && !allDone

/-- The observer events added by one successful loop iteration (lines
320-322). -/
def eventsAdd (env : LoopEnv) (s : Nat) (allDone : Bool) (outputs : List String) :
    List ObserverEvent :=
  if emitOf env allDone outputs then [ObserverEvent.onNext (stepRespOf env s outputs)] else []

/-- The `ShouldStop` call of lines 324-325 for the step with 0-based index
`s` (so with `num_decode_steps = s + 1` and the executor's current step read
after the step). -/
def stoppedOf (env : LoopEnv) (K : Nat) (allDone : Bool) (s : Nat) : Bool :=
  shouldStop allDone K (s + 1) (env.currentStep (s + 1)) env.maxNumTokens

/-- The instrumentation record for the iteration with 0-based step index
`s`. -/
def stepInfoOf (env : LoopEnv) (K : Nat) (allDone : Bool) (s : Nat)
    (outputs : List String) : StepInfo :=
  ⟨anyUpdOf outputs, allDone, emitOf env allDone outputs,
    stoppedOf env K allDone s, s, outputs⟩

/-- The `while (true)` loop of lines 278-328, as a fuel-indexed recursion.
`s` is both the number of completed decode steps and the iteration index (the
two advance together).  `finTexts`, `acc` and `cnt` are the batch-mode
accumulators `final_responses` texts, `accumulated_scores` and
`num_decoded_tokens`, kept as index functions and materialized at the end. -/
def decodeLoopAux (env : LoopEnv) (K : Nat) (fuel : Nat) (st : StepState)
    (s : Nat) (finTexts : Nat → String) (acc : Nat → ℚ) (cnt : Nat → Nat)
    (events : List ObserverEvent) (log : List StepInfo) : Option LoopResult :=
  match fuel with
  | 0 => none
  | fuel + 1 =>
    if isCancelled env s then
      some ⟨events ++ (if env.isStreaming then [ObserverEvent.onError cancelledError] else []),
        Except.error cancelledError, s, log, st⟩
    else
      match runOneStep env st s with
      | Except.error e =>
        some ⟨events ++ (if env.isStreaming then [ObserverEvent.onError e] else []),
          Except.error e, s, log, st⟩
      | Except.ok (allDone, st') =>
        if stoppedOf env K allDone s then
          some (finalizeLoop env st' (s + 1)
            (finTextsNext env st'.resultText finTexts)
            (accNext env s st'.resultText acc)
            (cntNext env st'.resultText cnt)
            (events ++ eventsAdd env s allDone st'.resultText)
            (log ++ [stepInfoOf env K allDone s st'.resultText]))
        else
          decodeLoopAux env K fuel st' (s + 1)
            (finTextsNext env st'.resultText finTexts)
            (accNext env s st'.resultText acc)
            (cntNext env st'.resultText cnt)
            (events ++ eventsAdd env s allDone st'.resultText)
            (log ++ [stepInfoOf env K allDone s st'.resultText])

/-- Whether `TimeDecodeTurnStart` succeeds (vacuously true when no benchmark
info is present). -/
def benchStartOk (env : LoopEnv) : Bool :=
  match env.bench with
  | some b => b.startErr.isNone
  | none => true

/-- Whether `TimeDecodeTurnEnd` succeeds (vacuously true when no benchmark
info is present). -/
def benchEndOk (env : LoopEnv) : Bool :=
  match env.bench with
  | some b => b.endErr.isNone
  | none => true

/-- The `benchmark_decode_token_count` read at lines 263-266 (0 when no
benchmark info is present). -/
def benchK (env : LoopEnv) : Nat :=
  (env.bench.map (fun b => b.numDecodeTokens)).getD 0

/-- `DecodeLoop` (lines 252-357): read the benchmark cap and
`TimeDecodeTurnStart` (whose failure is returned with no observer event),
construct the `DecodeOneStep` object with a copy of the caller's detector,
then run the loop.  `none` means the given fuel did not suffice (the C++ loop
would still be running). -/
def decodeLoop (env : LoopEnv) (det : DetectorState) (fuel : Nat) : Option LoopResult :=
  match env.bench with
  | some b =>
    match b.startErr with
    | some e => some ⟨[], Except.error e, 0, [], StepState.init env.n det⟩
    | none =>
      decodeLoopAux env (benchK env) fuel (StepState.init env.n det) 0
        (fun _ => "") (fun _ => 0) (fun _ => 0) [] []
  | none =>
    decodeLoopAux env (benchK env) fuel (StepState.init env.n det) 0
      (fun _ => "") (fun _ => 0) (fun _ => 0) [] []

/-! ### Public entry points (pipeline.cc lines 392-443)

Each entry point takes the caller's `StopTokenDetector` by const reference and
`DecodeLoop` hands it to the `DecodeOneStep` constructor, which stores a
by-value copy (member `StopTokenDetector stop_token_detector_`, line 235); all
mutation (`ProcessTokens`, line 135) happens on that member.  The embedding
therefore threads the loop's detector inside `StepState` and returns the
caller's object unchanged as the second component. -/

/-- `Decode` (lines 392-400): one candidate, batch, internal sampling. -/
def decodeEntry (env : LoopEnv) (det : DetectorState) (fuel : Nat) :
    Option LoopResult × DetectorState :=
  (decodeLoop { env with n := 1, isStreaming := false, isCustomSampling := false }
    det fuel, det)

/-- `DecodeStreaming` (lines 402-416): null-observer check, then one
candidate, streaming, internal sampling. -/
def decodeStreamingEntry (env : LoopEnv) (observerNull : Bool)
    (det : DetectorState) (fuel : Nat) : Option LoopResult × DetectorState :=
  if observerNull then
    (some ⟨[], Except.error ⟨StatusCode.invalidArgument,
        "Observer must not be null for streaming."⟩, 0, [], StepState.init 1 det⟩, det)
  else
    (decodeLoop { env with n := 1, isStreaming := true, isCustomSampling := false }
      det fuel, det)

/-- `DecodeCustomSampling` (lines 418-427): N candidates, batch, external
sampling. -/
def decodeCustomSamplingEntry (env : LoopEnv) (det : DetectorState) (fuel : Nat) :
    Option LoopResult × DetectorState :=
  (decodeLoop { env with isStreaming := false, isCustomSampling := true } det fuel, det)

/-- `DecodeCustomSamplingStreaming` (lines 429-443): null-observer check,
then N candidates, streaming, external sampling. -/
def decodeCustomSamplingStreamingEntry (env : LoopEnv) (observerNull : Bool)
    (det : DetectorState) (fuel : Nat) : Option LoopResult × DetectorState :=
  if observerNull then
    (some ⟨[], Except.error ⟨StatusCode.invalidArgument,
        "Observer must not be null for streaming."⟩, 0, [], StepState.init env.n det⟩, det)
  else
    (decodeLoop { env with isStreaming := true, isCustomSampling := true } det fuel, det)

/-! ### Derived log quantities (for the score-mean claim) -/

/-- Whether candidate `j` produced non-empty output text at a logged step. -/
def contributes (info : StepInfo) (j : Nat) : Bool :=
  info.outputs.getD j "" ≠ ""

/-- Sum of the per-step scores of candidate `j` over the logged steps where it
produced non-empty output. -/
def logSum (env : LoopEnv) (log : List StepInfo) (j : Nat) : ℚ :=
  (log.filter (fun info => contributes info j)).foldl
    (fun a info => a + env.scoresAt info.stepIndex j) 0

/-- Number of logged steps where candidate `j` produced non-empty output. -/
def logCnt (log : List StepInfo) (j : Nat) : Nat :=
  (log.filter (fun info => contributes info j)).length

/-! ### Concrete instances used by witnesses and counterexamples -/

/-- A one-candidate detector with the single stop sequence `[2]`, nothing
matched yet. -/
def detW : DetectorState := ⟨[[2]], [CandState.mk false []]⟩

/-- A detector whose single candidate is already done at entry. -/
def detDoneW : DetectorState := ⟨[[2]], [CandState.mk true [2]]⟩

/-- A one-candidate detector with stop sequence `[7]` (so the witness trace,
which always emits token 7, completes the stop at the first step). -/
def detAdv : DetectorState := ⟨[[7]], [CandState.mk false []]⟩

/-- Base witness environment: one candidate, the executor always emits token
7, the tokenizer decodes every sequence to `"x"`, the current step equals the
number of completed decode steps. -/
def envBase : LoopEnv where
  n := 1
  rawToks := fun _ => Except.ok [7]
  decodeText := fun _ => some "x"
  scoresAt := fun _ _ => 1
  currentStep := fun s => s
  maxNumTokens := 100
  bench := none
  isStreaming := false
  isCustomSampling := false
  cancelAt := none

/-- Streaming environment whose first step produces output while the cache
bound is hit at that same step. -/
def envC2x : LoopEnv := { envBase with isStreaming := true, maxNumTokens := 1 }

/-- Streaming environment whose benchmark `TimeDecodeTurnStart` fails. -/
def envC3s : LoopEnv :=
  { envBase with
      isStreaming := true
      bench := some ⟨0, some ⟨StatusCode.internal, "Unpaired mark."⟩, none⟩ }

/-- Streaming environment cancelled before the first iteration. -/
def envC3w : LoopEnv := { envBase with isStreaming := true, cancelAt := some 0 }

/-- Streaming environment cancelled before iteration 1. -/
def envC7w : LoopEnv := { envBase with isStreaming := true, cancelAt := some 1 }

/-- Batch external-sampling environment that stops via the cache bound after
two steps; the tokenizer decodes every token to the empty string, so no step
contributes to the score mean. -/
def envC6w : LoopEnv :=
  { envBase with
      isCustomSampling := true
      maxNumTokens := 2
      decodeText := fun _ => some "" }

/-- Streaming environment whose executor emits the stop token 2 immediately. -/
def envC8w : LoopEnv := { envBase with isStreaming := true, rawToks := fun _ => Except.ok [2] }

/-- Environment whose executor reports a current step far beyond the token
budget already at entry. -/
def envC10w : LoopEnv := { envBase with currentStep := fun _ => 100, maxNumTokens := 1 }

/-- Environment for the C4 counterexample: token 5 at step 0 decodes to
`"a"` and starts matching the stop sequence `[5, 6]` (so the fragment is
deferred); token 9 at step 1 decodes as an incomplete BPE sequence while the
detector falls back to an empty match. -/
def envC4x : LoopEnv :=
  { envBase with
      rawToks := fun t => Except.ok [if t = 0 then 5 else 9]
      decodeText := fun ids => if ids = [5] then some "a" else none
      maxNumTokens := 2 }

/-- A one-candidate detector with the two-token stop sequence `[5, 6]`. -/
def detC4x : DetectorState := ⟨[[5, 6]], [CandState.mk false []]⟩

/-- The step state after step 0 of the C4 counterexample: fragment `"a"`
deferred while the matched stop prefix has length 1. -/
def stC4a : StepState := ⟨⟨[[5, 6]], [⟨false, [5]⟩]⟩, [[]], [["a"]], [""]⟩

/-- The step state after step 1 of the C4 counterexample: the detector fell
back to a matched prefix of length 0, but the incomplete-BPE branch left the
deferred queue untouched with 1 fragment. -/
def stC4b : StepState := ⟨⟨[[5, 6]], [⟨false, []⟩]⟩, [[9]], [["a"]], [""]⟩

/-- `Prefill` environment with an empty prompt. -/
def envC5x : PrefillEnv := ⟨[], 10, Except.ok (), none⟩

/-- `Prefill` environment with a valid two-token prompt. -/
def envC5w : PrefillEnv := ⟨[4, 5], 10, Except.ok (), none⟩

/-! ## Theorems -/

/-- C1: the decode loop terminates after an iteration iff (all candidates
stopped and the benchmark cap `K` is 0), or (`K > 0` and the number of decoded
steps `s` satisfies `s ≥ K`), or the executor's current step reached
`max_num_tokens`; in particular, when `K > 0` a detected stop alone never ends
the loop before `s ≥ K`: with a detected stop the loop continues exactly when
`K > 0`, `s < K` and the cache bound is not hit. -/
theorem c1_termination_conditions :
    ∀ (hit : Bool) (K s c m : Nat),
      (shouldStop hit K s c m = true ↔
        ((hit = true ∧ K = 0) ∨ (0 < K ∧ K ≤ s) ∨ m ≤ c)) ∧
      (shouldStop true K s c m = false ↔ (0 < K ∧ s < K ∧ c < m)) := by
  intro hit K s c m
  unfold shouldStop
  constructor
  · split_ifs with h1 h2 <;> simp_all
  · split_ifs with h1 h2 <;> simp_all
    omega

/-- C4 (amended): at a decode step whose decode is complete and whose
candidate is not stopped, the per-candidate processing leaves the
deferred-fragment queue with at most `max_partial_stop_len` fragments: when
that bound `L` is positive the new fragment is pushed and the oldest
fragments are shifted in FIFO order onto the output until the queue size is
at most `L`; when `L = 0` the queue is drained and the new fragment goes
directly onto the output.  At an incomplete-BPE or already-stopped step,
however, the queue is left untouched (last two conjuncts), so after such a
step it can exceed a shrunken `max_partial_stop_len` — see the
counterexample. -/
theorem c4_deferred_queue_bound :
    ∀ (txt : String) (mergedIds bpe : List Int) (queue : List String) (L : Nat),
      (processCandidate (some txt) mergedIds false L bpe queue).2.1.length ≤ L ∧
      (0 < L →
        (processCandidate (some txt) mergedIds false L bpe queue).2.1 =
          (queue ++ [txt]).drop ((queue ++ [txt]).length - L) ∧
        (processCandidate (some txt) mergedIds false L bpe queue).2.2 =
          String.join ((queue ++ [txt]).take ((queue ++ [txt]).length - L))) ∧
      (L = 0 →
        (processCandidate (some txt) mergedIds false L bpe queue).2.1 = [] ∧
        (processCandidate (some txt) mergedIds false L bpe queue).2.2 =
          String.join queue ++ txt) ∧
      (∀ sf : Bool,
        (processCandidate none mergedIds sf L bpe queue).2.1 = queue) ∧
      (processCandidate (some txt) mergedIds true L bpe queue).2.1 = queue := by
  intro txt mergedIds bpe queue L
  by_cases hL : L = 0
  · subst hL
    refine ⟨?_, fun h => absurd h (by omega), fun _ => ⟨?_, ?_⟩, fun _ => rfl, rfl⟩
    · simp [processCandidate]
    · simp [processCandidate, List.drop_length]
    · simp [processCandidate, List.take_length]
  · have hL' : 0 < L := Nat.pos_of_ne_zero hL
    refine ⟨?_, fun _ => ⟨?_, ?_⟩, fun h => absurd h hL, fun _ => rfl, rfl⟩
    · simp [processCandidate, hL, hL', List.length_drop]
      omega
    · simp [processCandidate, hL, hL']
    · simp [processCandidate, hL, hL']

/-- C4 counterexample: the blanket invariant "after every decode step the
deferred queue holds at most `max_partial_stop_len(i)` fragments" is false.
In the trace `envC4x`, step 0 defers fragment `"a"` while the matched stop
prefix has length 1; step 1 decodes as an incomplete BPE sequence, a branch
that never touches the queue, while the detector falls back to a matched
prefix of length 0 — so after that decode step the queue holds 1 fragment
with `max_partial_stop_len = 0`.  The last conjunct shows the violating state
is reached by a full `DecodeLoop` run. -/
theorem c4_counterexample :
    runOneStep envC4x (StepState.init 1 detC4x) 0 = Except.ok (false, stC4a) ∧
    runOneStep envC4x stC4a 1 = Except.ok (false, stC4b) ∧
    ¬ (stC4b.pending.getD 0 []).length ≤ stC4b.detector.maxPartialStopLen 0 ∧
    (decodeLoop envC4x detC4x 3).map (fun r =>
      ((r.finalStep.pending.getD 0 []).length,
        r.finalStep.detector.maxPartialStopLen 0)) = some (1, 0) := by
  refine ⟨by decide, by decide, by decide, by decide⟩

/-- Witness for C4 at a concrete input (`L = 1`, queue `["a", "b"]`, new
fragment `"c"`). -/
theorem c4_deferred_queue_bound_witness :
    0 < 1 ∧
    (processCandidate (some "c") [3] false 1 [7] ["a", "b"]).2.1 =
      (["a", "b"] ++ ["c"]).drop ((["a", "b"] ++ ["c"]).length - 1) ∧
    (processCandidate (some "c") [3] false 1 [7] ["a", "b"]).2.2 =
      String.join ((["a", "b"] ++ ["c"]).take ((["a", "b"] ++ ["c"]).length - 1)) :=
  ⟨Nat.one_pos, (c4_deferred_queue_bound "c" [3] [7] ["a", "b"] 1).2.1 Nat.one_pos⟩

/-- C5 counterexample: on the empty prompt (with a positive token budget)
`Prefill` fails with `Internal("Input token ids are empty.")`, not with
`InvalidArgument` as the claim states. -/
theorem c5_counterexample :
    prefill envC5x =
      Except.error ⟨StatusCode.internal, "Input token ids are empty."⟩ ∧
    statusCodeOf (prefill envC5x) ≠ some StatusCode.invalidArgument := by
  constructor
  · rfl
  · intro h
    simp [prefill, envC5x, statusCodeOf] at h

/-- C5 (amended): `Prefill` fails with `InvalidArgument` exactly when the
token count is `≥ max_tokens` (with a message naming both numbers, and
assuming the executor and benchmark succeed, since an executor error is
surfaced verbatim); an empty prompt below the budget fails with `Internal`;
every non-empty prompt shorter than `max_tokens` with a succeeding executor
and benchmark returns the last token id of the prompt buffer. -/
theorem c5_prefill_amended :
    ∀ env : PrefillEnv,
      (env.maxNumTokens ≤ env.tokenIds.length →
        prefill env = Except.error ⟨StatusCode.invalidArgument,
          tooLongMsg env.tokenIds.length env.maxNumTokens⟩) ∧
      (env.tokenIds = [] → env.tokenIds.length < env.maxNumTokens →
        prefill env = Except.error ⟨StatusCode.internal, "Input token ids are empty."⟩) ∧
      (env.executorRes = Except.ok () → benchPrefillOk env = true →
        (statusCodeOf (prefill env) = some StatusCode.invalidArgument ↔
          env.maxNumTokens ≤ env.tokenIds.length)) ∧
      (env.tokenIds ≠ [] → env.tokenIds.length < env.maxNumTokens →
        env.executorRes = Except.ok () → benchPrefillOk env = true →
        prefill env = Except.ok (env.tokenIds.getLastD 0)) := by
  intro env
  refine ⟨?_, ?_, ?_, ?_⟩
  · intro h
    unfold prefill
    rw [if_pos h]
  · intro h hlt
    unfold prefill
    rw [if_neg (by omega), if_pos (by simp [h])]
  · intro hex hb
    by_cases h1 : env.maxNumTokens ≤ env.tokenIds.length
    · unfold prefill
      rw [if_pos h1]
      simp [statusCodeOf, h1]
    · unfold prefill
      rw [if_neg h1]
      by_cases h2 : env.tokenIds.isEmpty
      · rw [if_pos h2]
        simp [statusCodeOf, h1]
      · rw [if_neg h2, hex]
        rcases hbe : env.bench with _ | ob
        · simp [statusCodeOf, h1]
        · rcases ob with _ | e
          · simp [statusCodeOf, h1]
          · rw [benchPrefillOk, hbe] at hb
            cases hb
  · intro hne hlt hex hb
    unfold prefill
    rw [if_neg (by omega), if_neg (by simp [hne]), hex]
    rcases hbe : env.bench with _ | ob
    · rfl
    · rcases ob with _ | e
      · rfl
      · rw [benchPrefillOk, hbe] at hb
        cases hb

/-- Witness for C5 (amended) at a concrete valid prompt `[4, 5]` with budget
10. -/
theorem c5_prefill_amended_witness :
    envC5w.tokenIds ≠ [] ∧ envC5w.tokenIds.length < envC5w.maxNumTokens ∧
    envC5w.executorRes = Except.ok () ∧ benchPrefillOk envC5w = true ∧
    prefill envC5w = Except.ok 5 :=
  ⟨by decide, by decide, rfl, rfl,
    (c5_prefill_amended envC5w).2.2.2 (by decide) (by decide) rfl rfl⟩

/-! ### Helper lemmas about the loop recursion -/

theorem isNextEv_not_terminal (ev : ObserverEvent) (h : ev.isNextEv = true) :
    ev.isErrEv = false ∧ ev.isDoneEv = false := by
  cases ev <;> simp_all [ObserverEvent.isNextEv, ObserverEvent.isErrEv,
    ObserverEvent.isDoneEv]

theorem finalizeTail_numSteps (env : LoopEnv) (st : StepState) (s : Nat)
    (finTexts : Nat → String) (acc : Nat → ℚ) (cnt : Nat → Nat)
    (events : List ObserverEvent) (log : List StepInfo) :
    (finalizeTail env st s finTexts acc cnt events log).numSteps = s := by
  unfold finalizeTail
  split_ifs <;> rfl

theorem finalizeLoop_numSteps (env : LoopEnv) (st : StepState) (s : Nat)
    (finTexts : Nat → String) (acc : Nat → ℚ) (cnt : Nat → Nat)
    (events : List ObserverEvent) (log : List StepInfo) :
    (finalizeLoop env st s finTexts acc cnt events log).numSteps = s := by
  unfold finalizeLoop
  split
  · split
    · rfl
    · exact finalizeTail_numSteps env st s finTexts acc cnt events log
  · exact finalizeTail_numSteps env st s finTexts acc cnt events log

theorem decodeLoopAux_numSteps_ge (env : LoopEnv) (K : Nat) :
    ∀ (fuel : Nat) (st : StepState) (s : Nat) (finTexts : Nat → String)
      (acc : Nat → ℚ) (cnt : Nat → Nat) (events : List ObserverEvent)
      (log : List StepInfo) (res : LoopResult),
      decodeLoopAux env K fuel st s finTexts acc cnt events log = some res →
      s ≤ res.numSteps := by
  intro fuel
  induction fuel with
  | zero =>
    intro st s finTexts acc cnt events log res h
    exact absurd h (by simp [decodeLoopAux])
  | succ fuel ih =>
    intro st s finTexts acc cnt events log res h
    rw [decodeLoopAux] at h
    by_cases hc : isCancelled env s = true
    · rw [if_pos hc] at h
      injection h with h
      subst h
      exact Nat.le_refl s
    · rw [if_neg hc] at h
      split at h
      · injection h with h
        subst h
        exact Nat.le_refl s
      · rename_i allDone st' heq
        by_cases hstop : stoppedOf env K allDone s = true
        · rw [if_pos hstop] at h
          injection h with h
          subst h
          rw [finalizeLoop_numSteps]
          exact Nat.le_succ s
        · rw [if_neg hstop] at h
          exact Nat.le_of_succ_le (ih _ _ _ _ _ _ _ _ h)

theorem getLastq_append_singleton {α : Type} (l : List α) (a : α) :
    (l ++ [a]).getLast? = some a := by
  simp

theorem eventsAdd_all_next (env : LoopEnv) (s : Nat) (allDone : Bool)
    (outputs : List String) :
    ∀ ev ∈ eventsAdd env s allDone outputs, ev.isNextEv = true := by
  intro ev hev
  unfold eventsAdd at hev
  split at hev
  · simp only [List.mem_singleton] at hev
    subst hev
    rfl
  · simp at hev

theorem finalizeLoop_eq_tail (env : LoopEnv) (st : StepState) (s : Nat)
    (finTexts : Nat → String) (acc : Nat → ℚ) (cnt : Nat → Nat)
    (events : List ObserverEvent) (log : List StepInfo)
    (hend : benchEndOk env = true) :
    finalizeLoop env st s finTexts acc cnt events log =
      finalizeTail env st s finTexts acc cnt events log := by
  unfold finalizeLoop
  split
  · rename_i b hb
    split
    · rename_i e he
      rw [benchEndOk, hb] at hend
      simp [he] at hend
    · rfl
  · rfl

theorem finalizeTail_streaming (env : LoopEnv) (st : StepState) (s : Nat)
    (finTexts : Nat → String) (acc : Nat → ℚ) (cnt : Nat → Nat)
    (events : List ObserverEvent) (log : List StepInfo)
    (hstream : env.isStreaming = true) :
    finalizeTail env st s finTexts acc cnt events log =
      ⟨events ++ [if env.maxNumTokens ≤ env.currentStep s then
          ObserverEvent.onError kvCacheError else ObserverEvent.onDone],
        Except.ok (Responses.make 0), s, log, st⟩ := by
  unfold finalizeTail
  rw [if_pos hstream]
  split_ifs with h <;> rfl

/-- In a streaming run with a succeeding benchmark timer, whenever the loop
recursion yields an error result, the last observer event is `OnError` with
the same status. -/
theorem decodeLoopAux_error_last_event (env : LoopEnv) (K : Nat)
    (hstream : env.isStreaming = true) (hend : benchEndOk env = true) :
    ∀ (fuel : Nat) (st : StepState) (s : Nat) (finTexts : Nat → String)
      (acc : Nat → ℚ) (cnt : Nat → Nat) (events : List ObserverEvent)
      (log : List StepInfo) (res : LoopResult) (e : AbslStatus),
      decodeLoopAux env K fuel st s finTexts acc cnt events log = some res →
      res.result = Except.error e →
      res.events.getLast? = some (ObserverEvent.onError e) := by
  intro fuel
  induction fuel with
  | zero =>
    intro st s finTexts acc cnt events log res e h
    exact absurd h (by simp [decodeLoopAux])
  | succ fuel ih =>
    intro st s finTexts acc cnt events log res e h hres
    rw [decodeLoopAux] at h
    by_cases hc : isCancelled env s = true
    · rw [if_pos hc] at h
      injection h with h
      subst h
      rw [if_pos hstream] at hres ⊢
      have he : cancelledError = e := Except.error.inj hres
      subst he
      exact getLastq_append_singleton events (ObserverEvent.onError cancelledError)
    · rw [if_neg hc] at h
      split at h
      · rename_i e0 heq
        injection h with h
        subst h
        rw [if_pos hstream] at hres ⊢
        have he : e0 = e := Except.error.inj hres
        subst he
        exact getLastq_append_singleton events (ObserverEvent.onError e0)
      · rename_i allDone st' heq
        by_cases hstop : stoppedOf env K allDone s = true
        · rw [if_pos hstop] at h
          injection h with h
          subst h
          rw [finalizeLoop_eq_tail env _ _ _ _ _ _ _ hend,
            finalizeTail_streaming env _ _ _ _ _ _ _ hstream] at hres
          cases hres
        · rw [if_neg hstop] at h
          exact ih _ _ _ _ _ _ _ _ _ h hres

/-- C3 (amended): in streaming mode, errors arising inside the loop — the
cancellation check and any decode-step (executor / tokenizer / sampler)
failure — are delivered to the observer via `on_error` with the same status
before the function returns; however this requires the benchmark timer's
`TimeDecodeTurnStart` / `TimeDecodeTurnEnd` calls to succeed, since their
failures are returned without any observer event. -/
theorem c3_streaming_error_event_amended :
    ∀ (env : LoopEnv) (det : DetectorState) (fuel : Nat) (res : LoopResult)
      (e : AbslStatus),
      env.isStreaming = true →
      benchStartOk env = true →
      benchEndOk env = true →
      decodeLoop env det fuel = some res →
      res.result = Except.error e →
      res.events.getLast? = some (ObserverEvent.onError e) := by
  intro env det fuel res e hstream hbs hbe h hres
  unfold decodeLoop at h
  split at h
  · rename_i b hb
    split at h
    · rename_i e0 he0
      rw [benchStartOk, hb] at hbs
      simp [he0] at hbs
    · exact decodeLoopAux_error_last_event env (benchK env) hstream hbe
        _ _ _ _ _ _ _ _ _ _ h hres
  · exact decodeLoopAux_error_last_event env (benchK env) hstream hbe
      _ _ _ _ _ _ _ _ _ _ h hres

/-- The result of the run used by the witness of the amended C3: cancellation
before the first iteration. -/
def resC3w : LoopResult :=
  ⟨[ObserverEvent.onError cancelledError], Except.error cancelledError, 0, [],
    StepState.init 1 detW⟩

/-- Witness for the amended C3 at the concrete cancelled streaming run
`envC3w`. -/
theorem c3_streaming_error_event_amended_witness :
    envC3w.isStreaming = true ∧ benchStartOk envC3w = true ∧
    benchEndOk envC3w = true ∧ decodeLoop envC3w detW 1 = some resC3w ∧
    resC3w.events.getLast? = some (ObserverEvent.onError cancelledError) :=
  ⟨rfl, rfl, rfl, by decide,
    c3_streaming_error_event_amended envC3w detW 1 resC3w cancelledError
      rfl rfl rfl (by decide) (by decide)⟩

theorem finalizeLoop_cases (env : LoopEnv) (st : StepState) (s : Nat)
    (finTexts : Nat → String) (acc : Nat → ℚ) (cnt : Nat → Nat)
    (events : List ObserverEvent) (log : List StepInfo) :
    (benchEndOk env = true ∧
      finalizeLoop env st s finTexts acc cnt events log =
        finalizeTail env st s finTexts acc cnt events log) ∨
    (∃ e, finalizeLoop env st s finTexts acc cnt events log =
        ⟨events, Except.error e, s, log, st⟩) := by
  rcases hb : env.bench with _ | b
  · left
    constructor
    · simp [benchEndOk, hb]
    · rw [finalizeLoop, hb]
  · rcases b with ⟨Kb, sb, eb⟩
    rcases eb with _ | e
    · left
      constructor
      · simp [benchEndOk, hb]
      · rw [finalizeLoop, hb]
    · right
      exact ⟨e, by rw [finalizeLoop, hb]⟩

/-- In a streaming run whose recursion returns an OK result, the returned
responses are empty, the last observer event is the terminal one selected by
the final cache-bound check, and every earlier event is an `OnNext`. -/
theorem decodeLoopAux_streaming_ok (env : LoopEnv) (K : Nat)
    (hstream : env.isStreaming = true) :
    ∀ (fuel : Nat) (st : StepState) (s : Nat) (finTexts : Nat → String)
      (acc : Nat → ℚ) (cnt : Nat → Nat) (events : List ObserverEvent)
      (log : List StepInfo) (res : LoopResult) (resp : Responses),
      decodeLoopAux env K fuel st s finTexts acc cnt events log = some res →
      (∀ ev ∈ events, ev.isNextEv = true) →
      res.result = Except.ok resp →
      resp = Responses.make 0 ∧
      res.events.getLast? = some (if env.maxNumTokens ≤ env.currentStep res.numSteps
        then ObserverEvent.onError kvCacheError else ObserverEvent.onDone) ∧
      (∀ ev ∈ res.events.dropLast, ev.isNextEv = true) := by
  intro fuel
  induction fuel with
  | zero =>
    intro st s finTexts acc cnt events log res resp h
    exact absurd h (by simp [decodeLoopAux])
  | succ fuel ih =>
    intro st s finTexts acc cnt events log res resp h hevents hres
    rw [decodeLoopAux] at h
    by_cases hc : isCancelled env s = true
    · rw [if_pos hc] at h
      injection h with h
      subst h
      exact Except.noConfusion hres
    · rw [if_neg hc] at h
      split at h
      · rename_i e0 heq
        injection h with h
        subst h
        exact Except.noConfusion hres
      · rename_i allDone st' heq
        by_cases hstop : stoppedOf env K allDone s = true
        · rw [if_pos hstop] at h
          injection h with h
          subst h
          rcases finalizeLoop_cases env st' (s + 1)
              (finTextsNext env st'.resultText finTexts)
              (accNext env s st'.resultText acc)
              (cntNext env st'.resultText cnt)
              (events ++ eventsAdd env s allDone st'.resultText)
              (log ++ [stepInfoOf env K allDone s st'.resultText]) with
            ⟨hbe, heq2⟩ | ⟨e2, heq2⟩
          · rw [heq2, finalizeTail_streaming env _ _ _ _ _ _ _ hstream] at hres ⊢
            have hmk : Responses.make 0 = resp := Except.ok.inj hres
            subst hmk
            refine ⟨rfl, ?_, ?_⟩
            · exact getLastq_append_singleton _ _
            · rw [List.dropLast_concat]
              intro ev hev
              rcases List.mem_append.mp hev with h1 | h2
              · exact hevents ev h1
              · exact eventsAdd_all_next env s allDone st'.resultText ev h2
          · rw [heq2] at hres
            exact Except.noConfusion hres
        · rw [if_neg hstop] at h
          refine ih _ _ _ _ _ _ _ _ _ h ?_ hres
          intro ev hev
          rcases List.mem_append.mp hev with h1 | h2
          · exact hevents ev h1
          · exact eventsAdd_all_next env s allDone st'.resultText ev h2

/-- C8: in streaming mode, when the decode loop terminates without error,
exactly one terminal event ends the event stream — `on_error(Internal
("Maximum kv-cache size reached."))` if the final cache-exhaustion check
fires, `on_done()` otherwise (every earlier event being an `on_next`) — and
the call returns an empty `Responses`. -/
theorem c8_streaming_terminal_event :
    ∀ (env : LoopEnv) (det : DetectorState) (fuel : Nat) (res : LoopResult)
      (resp : Responses),
      env.isStreaming = true →
      decodeLoop env det fuel = some res →
      res.result = Except.ok resp →
      resp = Responses.make 0 ∧
      res.events.getLast? = some (if env.maxNumTokens ≤ env.currentStep res.numSteps
        then ObserverEvent.onError kvCacheError else ObserverEvent.onDone) ∧
      (∀ ev ∈ res.events.dropLast, ev.isNextEv = true) := by
  intro env det fuel res resp hstream h hres
  unfold decodeLoop at h
  split at h
  · rename_i b hb
    split at h
    · rename_i e0 he0
      injection h with h
      subst h
      exact Except.noConfusion hres
    · exact decodeLoopAux_streaming_ok env (benchK env) hstream _ _ _ _ _ _ _ _ _
        resp h (by intro ev hev; simp at hev) hres
  · exact decodeLoopAux_streaming_ok env (benchK env) hstream _ _ _ _ _ _ _ _ _
      resp h (by intro ev hev; simp at hev) hres

/-- The result of the run used by the witness of C8: the executor emits the
stop token immediately, the loop runs a single step and ends with `OnDone`. -/
def resC8w : LoopResult :=
  ⟨[ObserverEvent.onDone], Except.ok (Responses.make 0), 1,
    [⟨false, true, false, true, 0, [""]⟩],
    ⟨⟨[[2]], [⟨true, [2]⟩]⟩, [[]], [[]], [""]⟩⟩

/-- Witness for C8 at the concrete streaming run `envC8w`. -/
theorem c8_streaming_terminal_event_witness :
    envC8w.isStreaming = true ∧ decodeLoop envC8w detW 2 = some resC8w ∧
    resC8w.result = Except.ok (Responses.make 0) ∧
    (Responses.make 0 = Responses.make 0 ∧
      resC8w.events.getLast? =
        some (if envC8w.maxNumTokens ≤ envC8w.currentStep resC8w.numSteps
          then ObserverEvent.onError kvCacheError else ObserverEvent.onDone) ∧
      (∀ ev ∈ resC8w.events.dropLast, ev.isNextEv = true)) :=
  ⟨rfl, by decide, by decide,
    c8_streaming_terminal_event envC8w detW 2 resC8w (Responses.make 0)
      rfl (by decide) (by decide)⟩

theorem finalizeTail_stepLog (env : LoopEnv) (st : StepState) (s : Nat)
    (finTexts : Nat → String) (acc : Nat → ℚ) (cnt : Nat → Nat)
    (events : List ObserverEvent) (log : List StepInfo) :
    (finalizeTail env st s finTexts acc cnt events log).stepLog = log := by
  unfold finalizeTail
  split_ifs <;> rfl

theorem finalizeTail_filter_next (env : LoopEnv) (st : StepState) (s : Nat)
    (finTexts : Nat → String) (acc : Nat → ℚ) (cnt : Nat → Nat)
    (events : List ObserverEvent) (log : List StepInfo) :
    (finalizeTail env st s finTexts acc cnt events log).events.filter
        (fun e => e.isNextEv) =
      events.filter (fun e => e.isNextEv) := by
  unfold finalizeTail
  split_ifs <;> simp [List.filter_append, ObserverEvent.isNextEv]

theorem stepInfoOf_emit (env : LoopEnv) (K : Nat) (allDone : Bool) (s : Nat)
    (outs : List String) (hstream : env.isStreaming = true) :
    (stepInfoOf env K allDone s outs).emittedNext =
      ((stepInfoOf env K allDone s outs).anyUpdates &&
        !(stepInfoOf env K allDone s outs).allDoneFlag) := by
  simp [stepInfoOf, emitOf, hstream]

theorem eventsAdd_filter_next (env : LoopEnv) (s : Nat) (allDone : Bool)
    (outs : List String) :
    ((eventsAdd env s allDone outs).filter (fun e => e.isNextEv)).length =
      (([stepInfoOf env (0 : Nat) allDone s outs].filter
        (fun i => i.emittedNext)).length) := by
  by_cases hemit : emitOf env allDone outs = true <;>
    simp [eventsAdd, stepInfoOf, hemit, ObserverEvent.isNextEv]

/-- In a streaming run, every logged iteration has `emittedNext` equal to
`anyUpdates && !allDone`, and the number of `OnNext` events matches the number
of emitting iterations. -/
theorem decodeLoopAux_log (env : LoopEnv) (K : Nat)
    (hstream : env.isStreaming = true) :
    ∀ (fuel : Nat) (st : StepState) (s : Nat) (finTexts : Nat → String)
      (acc : Nat → ℚ) (cnt : Nat → Nat) (events : List ObserverEvent)
      (log : List StepInfo) (res : LoopResult),
      decodeLoopAux env K fuel st s finTexts acc cnt events log = some res →
      (∀ i ∈ log, i.emittedNext = (i.anyUpdates && !i.allDoneFlag)) →
      (events.filter (fun e => e.isNextEv)).length =
        (log.filter (fun i => i.emittedNext)).length →
      (∀ i ∈ res.stepLog, i.emittedNext = (i.anyUpdates && !i.allDoneFlag)) ∧
      (res.events.filter (fun e => e.isNextEv)).length =
        (res.stepLog.filter (fun i => i.emittedNext)).length := by
  intro fuel
  induction fuel with
  | zero =>
    intro st s finTexts acc cnt events log res h
    exact absurd h (by simp [decodeLoopAux])
  | succ fuel ih =>
    intro st s finTexts acc cnt events log res h hlog hcount
    rw [decodeLoopAux] at h
    by_cases hc : isCancelled env s = true
    · rw [if_pos hc] at h
      injection h with h
      subst h
      refine ⟨hlog, ?_⟩
      rw [if_pos hstream]
      simpa [List.filter_append, ObserverEvent.isNextEv] using hcount
    · rw [if_neg hc] at h
      split at h
      · rename_i e0 heq
        injection h with h
        subst h
        refine ⟨hlog, ?_⟩
        rw [if_pos hstream]
        simpa [List.filter_append, ObserverEvent.isNextEv] using hcount
      · rename_i allDone st' heq
        have hlogq : ∀ i ∈ log ++ [stepInfoOf env K allDone s st'.resultText],
            i.emittedNext = (i.anyUpdates && !i.allDoneFlag) := by
          intro i hi
          rcases List.mem_append.mp hi with h1 | h2
          · exact hlog i h1
          · rw [List.mem_singleton.mp h2]
            exact stepInfoOf_emit env K allDone s st'.resultText hstream
        have hcountq :
            (((events ++ eventsAdd env s allDone st'.resultText).filter
              (fun e => e.isNextEv)).length) =
            (((log ++ [stepInfoOf env K allDone s st'.resultText]).filter
              (fun i => i.emittedNext)).length) := by
          rw [List.filter_append, List.filter_append, List.length_append,
            List.length_append, hcount]
          congr 1
          by_cases hemit : emitOf env allDone st'.resultText = true <;>
            simp [eventsAdd, stepInfoOf, hemit, ObserverEvent.isNextEv]
        by_cases hstop : stoppedOf env K allDone s = true
        · rw [if_pos hstop] at h
          injection h with h
          subst h
          rcases finalizeLoop_cases env st' (s + 1)
              (finTextsNext env st'.resultText finTexts)
              (accNext env s st'.resultText acc)
              (cntNext env st'.resultText cnt)
              (events ++ eventsAdd env s allDone st'.resultText)
              (log ++ [stepInfoOf env K allDone s st'.resultText]) with
            ⟨hbe, heq2⟩ | ⟨e2, heq2⟩
          · rw [heq2, finalizeTail_stepLog, finalizeTail_filter_next]
            exact ⟨hlogq, hcountq⟩
          · rw [heq2]
            exact ⟨hlogq, hcountq⟩
        · rw [if_neg hstop] at h
          exact ih _ _ _ _ _ _ _ _ h hlogq hcountq

/-- C2 (amended): in streaming mode, `observer.on_next` is invoked for a
step's view iff at least one candidate produced non-empty output in that step
and the step's `AllDone` flag is false; whether a termination condition fires
at the step plays no role (see the counterexample, where `on_next` is emitted
at a terminating step). -/
theorem c2_on_next_amended :
    ∀ (env : LoopEnv) (det : DetectorState) (fuel : Nat) (res : LoopResult),
      env.isStreaming = true →
      decodeLoop env det fuel = some res →
      (∀ i ∈ res.stepLog, i.emittedNext = (i.anyUpdates && !i.allDoneFlag)) ∧
      (res.events.filter (fun e => e.isNextEv)).length =
        (res.stepLog.filter (fun i => i.emittedNext)).length := by
  intro env det fuel res hstream h
  unfold decodeLoop at h
  split at h
  · rename_i b hb
    split at h
    · rename_i e0 he0
      injection h with h
      subst h
      exact ⟨by intro i hi; simp at hi, by simp⟩
    · exact decodeLoopAux_log env (benchK env) hstream _ _ _ _ _ _ _ _ _ h
        (by intro i hi; simp at hi) (by simp)
  · exact decodeLoopAux_log env (benchK env) hstream _ _ _ _ _ _ _ _ _ h
      (by intro i hi; simp at hi) (by simp)

/-- The result of the run used by the witness of the amended C2. -/
def resC2w : LoopResult :=
  ⟨[ObserverEvent.onNext ⟨["x"], [ScoreVal.val 0]⟩, ObserverEvent.onError kvCacheError],
    Except.ok (Responses.make 0), 1, [⟨true, false, true, true, 0, ["x"]⟩],
    ⟨⟨[[2]], [⟨false, []⟩]⟩, [[]], [[]], ["x"]⟩⟩

/-- Witness for the amended C2 at the concrete streaming run `envC2x`. -/
theorem c2_on_next_amended_witness :
    envC2x.isStreaming = true ∧ decodeLoop envC2x detW 3 = some resC2w ∧
    ((∀ i ∈ resC2w.stepLog, i.emittedNext = (i.anyUpdates && !i.allDoneFlag)) ∧
      (resC2w.events.filter (fun e => e.isNextEv)).length =
        (resC2w.stepLog.filter (fun i => i.emittedNext)).length) :=
  ⟨rfl, by decide, c2_on_next_amended envC2x detW 3 resC2w rfl (by decide)⟩

theorem logSum_append (env : LoopEnv) (log : List StepInfo) (info : StepInfo)
    (j : Nat) :
    logSum env (log ++ [info]) j =
      logSum env log j +
        (if contributes info j then env.scoresAt info.stepIndex j else 0) := by
  unfold logSum
  rw [List.filter_append]
  by_cases hcon : contributes info j = true <;>
    simp [hcon, List.foldl_append]

theorem logCnt_append (log : List StepInfo) (info : StepInfo) (j : Nat) :
    logCnt (log ++ [info]) j =
      logCnt log j + (if contributes info j then 1 else 0) := by
  unfold logCnt
  rw [List.filter_append]
  by_cases hcon : contributes info j = true <;>
    simp [hcon]

theorem finalizeTail_batch (env : LoopEnv) (st : StepState) (s : Nat)
    (finTexts : Nat → String) (acc : Nat → ℚ) (cnt : Nat → Nat)
    (events : List ObserverEvent) (log : List StepInfo)
    (hbatch : env.isStreaming = false) (hcust : env.isCustomSampling = true) :
    finalizeTail env st s finTexts acc cnt events log =
      ⟨events, Except.ok ⟨(List.range env.n).map finTexts,
        (List.range env.n).map (fun j =>
          if 0 < cnt j then ScoreVal.val (acc j / (cnt j : ℚ))
          else ScoreVal.negInf)⟩, s, log, st⟩ := by
  simp [finalizeTail, hbatch, hcust]

/-- In a batch external-sampling run, the finalized scores are the per-step
score sums over contributing steps divided by the contributing-step counts
(negative infinity at count zero). -/
theorem decodeLoopAux_scores (env : LoopEnv) (K : Nat)
    (hbatch : env.isStreaming = false) (hcust : env.isCustomSampling = true) :
    ∀ (fuel : Nat) (st : StepState) (s : Nat) (finTexts : Nat → String)
      (acc : Nat → ℚ) (cnt : Nat → Nat) (events : List ObserverEvent)
      (log : List StepInfo) (res : LoopResult) (resp : Responses),
      decodeLoopAux env K fuel st s finTexts acc cnt events log = some res →
      (∀ j, acc j = logSum env log j) →
      (∀ j, cnt j = logCnt log j) →
      res.result = Except.ok resp →
      resp.scores = (List.range env.n).map (fun j =>
        if 0 < logCnt res.stepLog j then
          ScoreVal.val (logSum env res.stepLog j / (logCnt res.stepLog j : ℚ))
        else ScoreVal.negInf) := by
  intro fuel
  induction fuel with
  | zero =>
    intro st s finTexts acc cnt events log res resp h
    exact absurd h (by simp [decodeLoopAux])
  | succ fuel ih =>
    intro st s finTexts acc cnt events log res resp h hacc hcnt hres
    rw [decodeLoopAux] at h
    by_cases hc : isCancelled env s = true
    · rw [if_pos hc] at h
      injection h with h
      subst h
      exact Except.noConfusion hres
    · rw [if_neg hc] at h
      split at h
      · rename_i e0 heq
        injection h with h
        subst h
        exact Except.noConfusion hres
      · rename_i allDone st' heq
        have hnstream : ¬ env.isStreaming = true := by
          rw [hbatch]
          exact Bool.false_ne_true
        have haccq : ∀ j, accNext env s st'.resultText acc j =
            logSum env (log ++ [stepInfoOf env K allDone s st'.resultText]) j := by
          intro j
          rw [logSum_append]
          unfold accNext
          by_cases hcon : st'.resultText.getD j "" = ""
          · have hconb : contributes (stepInfoOf env K allDone s st'.resultText) j = false := by
              simp only [contributes, stepInfoOf, hcon]
              simp
            rw [if_neg (fun hcontra => hcontra.2.2 hcon), hacc j, hconb]
            simp
          · have hconb : contributes (stepInfoOf env K allDone s st'.resultText) j = true := by
              simp only [contributes, stepInfoOf]
              exact decide_eq_true hcon
            rw [if_pos ⟨hnstream, hcust, hcon⟩, hacc j, hconb]
            simp [stepInfoOf]
        have hcntq : ∀ j, cntNext env st'.resultText cnt j =
            logCnt (log ++ [stepInfoOf env K allDone s st'.resultText]) j := by
          intro j
          rw [logCnt_append]
          unfold cntNext
          by_cases hcon : st'.resultText.getD j "" = ""
          · have hconb : contributes (stepInfoOf env K allDone s st'.resultText) j = false := by
              simp only [contributes, stepInfoOf, hcon]
              simp
            rw [if_neg (fun hcontra => hcontra.2.2 hcon), hcnt j, hconb]
            simp
          · have hconb : contributes (stepInfoOf env K allDone s st'.resultText) j = true := by
              simp only [contributes, stepInfoOf]
              exact decide_eq_true hcon
            rw [if_pos ⟨hnstream, hcust, hcon⟩, hcnt j, hconb]
            simp
        by_cases hstop : stoppedOf env K allDone s = true
        · rw [if_pos hstop] at h
          injection h with h
          subst h
          rcases finalizeLoop_cases env st' (s + 1)
              (finTextsNext env st'.resultText finTexts)
              (accNext env s st'.resultText acc)
              (cntNext env st'.resultText cnt)
              (events ++ eventsAdd env s allDone st'.resultText)
              (log ++ [stepInfoOf env K allDone s st'.resultText]) with
            ⟨hbe, heq2⟩ | ⟨e2, heq2⟩
          · rw [heq2, finalizeTail_batch env _ _ _ _ _ _ _ hbatch hcust] at hres ⊢
            have hrespq : (⟨(List.range env.n).map (finTextsNext env st'.resultText finTexts),
                (List.range env.n).map (fun j =>
                  if 0 < cntNext env st'.resultText cnt j then
                    ScoreVal.val (accNext env s st'.resultText acc j /
                      (cntNext env st'.resultText cnt j : ℚ))
                  else ScoreVal.negInf)⟩ : Responses) = resp := Except.ok.inj hres
            subst hrespq
            dsimp only
            congr 1
            funext j
            rw [haccq j, hcntq j]
          · rw [heq2] at hres
            exact Except.noConfusion hres
        · rw [if_neg hstop] at h
          exact ih _ _ _ _ _ _ _ _ _ h haccq hcntq hres

/-- C6: in batch mode with external sampling, the final `score[i]` equals the
sum of the per-step scores of candidate `i` over exactly the steps where `i`
produced non-empty output text, divided by the count of those steps, and is
negative infinity when that count is zero (float arithmetic idealized as exact
rationals). -/
theorem c6_score_mean :
    ∀ (env : LoopEnv) (det : DetectorState) (fuel : Nat) (res : LoopResult)
      (resp : Responses),
      env.isStreaming = false →
      env.isCustomSampling = true →
      decodeLoop env det fuel = some res →
      res.result = Except.ok resp →
      resp.scores = (List.range env.n).map (fun j =>
        if 0 < logCnt res.stepLog j then
          ScoreVal.val (logSum env res.stepLog j / (logCnt res.stepLog j : ℚ))
        else ScoreVal.negInf) := by
  intro env det fuel res resp hbatch hcust h hres
  unfold decodeLoop at h
  split at h
  · rename_i b hb
    split at h
    · rename_i e0 he0
      injection h with h
      subst h
      exact Except.noConfusion hres
    · exact decodeLoopAux_scores env (benchK env) hbatch hcust _ _ _ _ _ _ _ _ _
        resp h (by intro j; simp [logSum]) (by intro j; simp [logCnt]) hres
  · exact decodeLoopAux_scores env (benchK env) hbatch hcust _ _ _ _ _ _ _ _ _
      resp h (by intro j; simp [logSum]) (by intro j; simp [logCnt]) hres

/-- The result of the run used by the witness of C6: two decode steps with
empty output, so neither step contributes and the final score is `-∞`. -/
def resC6w : LoopResult :=
  ⟨[], Except.ok ⟨[""], [ScoreVal.negInf]⟩, 2,
    [⟨false, false, false, false, 0, [""]⟩, ⟨false, false, false, true, 1, [""]⟩],
    ⟨⟨[[2]], [⟨false, []⟩]⟩, [[]], [[]], [""]⟩⟩

/-- Witness for C6 at the concrete batch external-sampling run `envC6w`. -/
theorem c6_score_mean_witness :
    envC6w.isStreaming = false ∧ envC6w.isCustomSampling = true ∧
    decodeLoop envC6w detW 3 = some resC6w ∧
    resC6w.result = Except.ok ⟨[""], [ScoreVal.negInf]⟩ ∧
    (⟨[""], [ScoreVal.negInf]⟩ : Responses).scores =
      (List.range envC6w.n).map (fun j =>
        if 0 < logCnt resC6w.stepLog j then
          ScoreVal.val (logSum envC6w resC6w.stepLog j /
            (logCnt resC6w.stepLog j : ℚ))
        else ScoreVal.negInf) :=
  ⟨rfl, rfl, by decide, by decide,
    c6_score_mean envC6w detW 3 resC6w ⟨[""], [ScoreVal.negInf]⟩
      rfl rfl (by decide) (by decide)⟩

theorem finalizeLoop_stepLog (env : LoopEnv) (st : StepState) (s : Nat)
    (finTexts : Nat → String) (acc : Nat → ℚ) (cnt : Nat → Nat)
    (events : List ObserverEvent) (log : List StepInfo) :
    (finalizeLoop env st s finTexts acc cnt events log).stepLog = log := by
  rcases finalizeLoop_cases env st s finTexts acc cnt events log with ⟨_, heq⟩ | ⟨e, heq⟩
  · rw [heq]
    exact finalizeTail_stepLog _ _ _ _ _ _ _ _
  · rw [heq]

/-- Run characterization under cancellation: if the flag reads true from
iteration `k` on, the run completed exactly `k` steps and no iteration
stopped, then the run was ended by the cancellation check: it returns
`Cancelled` after `k` steps, and in streaming mode the event stream is some
`OnNext` events followed by exactly one `OnError(Cancelled)` and no
`OnDone`. -/
theorem decodeLoopAux_cancel (env : LoopEnv) (K k : Nat)
    (hcancel : env.cancelAt = some k) :
    ∀ (fuel : Nat) (st : StepState) (s : Nat) (finTexts : Nat → String)
      (acc : Nat → ℚ) (cnt : Nat → Nat) (events : List ObserverEvent)
      (log : List StepInfo) (res : LoopResult),
      decodeLoopAux env K fuel st s finTexts acc cnt events log = some res →
      s ≤ k →
      log.length = s →
      (∀ ev ∈ events, ev.isNextEv = true) →
      res.stepLog.length = k →
      (∀ i ∈ res.stepLog, i.stoppedHere = false) →
      res.result = Except.error cancelledError ∧ res.numSteps = k ∧
      (env.isStreaming = true →
        res.events.getLast? = some (ObserverEvent.onError cancelledError) ∧
        (res.events.filter (fun e => e.isErrEv)).length = 1 ∧
        (res.events.filter (fun e => e.isDoneEv)).length = 0 ∧
        (∀ ev ∈ res.events.dropLast, ev.isNextEv = true)) := by
  intro fuel
  induction fuel with
  | zero =>
    intro st s finTexts acc cnt events log res h
    exact absurd h (by simp [decodeLoopAux])
  | succ fuel ih =>
    intro st s finTexts acc cnt events log res h hsk hlen hevents hklen hnostop
    rw [decodeLoopAux] at h
    by_cases hc : isCancelled env s = true
    · have hks : k ≤ s := by
        rw [isCancelled, hcancel] at hc
        exact of_decide_eq_true hc
      have hsk2 : s = k := Nat.le_antisymm hsk hks
      rw [if_pos hc] at h
      injection h with h
      subst h
      refine ⟨rfl, hsk2, ?_⟩
      intro hstream
      have herr : events.filter (fun e => e.isErrEv) = [] :=
        List.filter_eq_nil_iff.mpr (fun a ha => by
          rw [(isNextEv_not_terminal a (hevents a ha)).1]
          simp)
      have hdone : events.filter (fun e => e.isDoneEv) = [] :=
        List.filter_eq_nil_iff.mpr (fun a ha => by
          rw [(isNextEv_not_terminal a (hevents a ha)).2]
          simp)
      rw [if_pos hstream]
      refine ⟨getLastq_append_singleton _ _, ?_, ?_, ?_⟩
      · rw [List.filter_append, herr]
        simp [ObserverEvent.isErrEv]
      · rw [List.filter_append, hdone]
        simp [ObserverEvent.isDoneEv]
      · rw [List.dropLast_concat]
        exact hevents
    · have hsklt : s < k := by
        rcases Nat.lt_or_ge s k with h1 | h1
        · exact h1
        · exact absurd (by rw [isCancelled, hcancel]; exact decide_eq_true h1) hc
      rw [if_neg hc] at h
      split at h
      · rename_i e0 heq
        injection h with h
        subst h
        have h2 : log.length = k := hklen
        omega
      · rename_i allDone st' heq
        by_cases hstop : stoppedOf env K allDone s = true
        · rw [if_pos hstop] at h
          injection h with h
          subst h
          exfalso
          have hmem : stepInfoOf env K allDone s st'.resultText ∈
              (finalizeLoop env st' (s + 1)
                (finTextsNext env st'.resultText finTexts)
                (accNext env s st'.resultText acc)
                (cntNext env st'.resultText cnt)
                (events ++ eventsAdd env s allDone st'.resultText)
                (log ++ [stepInfoOf env K allDone s st'.resultText])).stepLog := by
            rw [finalizeLoop_stepLog]
            exact List.mem_append_right _ (List.mem_singleton_self _)
          have h3 : stoppedOf env K allDone s = false := hnostop _ hmem
          rw [hstop] at h3
          cases h3
        · rw [if_neg hstop] at h
          refine ih _ _ _ _ _ _ _ _ h hsklt (by simp [hlen]) ?_ hklen hnostop
          intro ev hev
          rcases List.mem_append.mp hev with h1 | h2
          · exact hevents ev h1
          · exact eventsAdd_all_next env s allDone st'.resultText ev h2

/-- C7: when the cancel flag is set before loop iteration `k` (and the loop
has neither stopped nor errored earlier, which is expressed by the run having
completed exactly `k` non-stopping steps), the loop terminates at iteration
`k` — the flag is read at the top of each iteration, before the decode step —
returning `Cancelled`; in streaming mode the observer receives exactly one
`on_error(Cancelled)` as the final event, no further `on_next` after it, and
no `on_done`; in batch mode the same `Cancelled` status is simply returned. -/
theorem c7_cancellation :
    ∀ (env : LoopEnv) (det : DetectorState) (fuel : Nat) (res : LoopResult)
      (k : Nat),
      env.cancelAt = some k →
      benchStartOk env = true →
      decodeLoop env det fuel = some res →
      res.stepLog.length = k →
      (∀ i ∈ res.stepLog, i.stoppedHere = false) →
      res.result = Except.error cancelledError ∧ res.numSteps = k ∧
      (env.isStreaming = true →
        res.events.getLast? = some (ObserverEvent.onError cancelledError) ∧
        (res.events.filter (fun e => e.isErrEv)).length = 1 ∧
        (res.events.filter (fun e => e.isDoneEv)).length = 0 ∧
        (∀ ev ∈ res.events.dropLast, ev.isNextEv = true)) := by
  intro env det fuel res k hcancel hbs h hklen hnostop
  unfold decodeLoop at h
  split at h
  · rename_i b hb
    split at h
    · rename_i e0 he0
      rw [benchStartOk, hb] at hbs
      simp [he0] at hbs
    · exact decodeLoopAux_cancel env (benchK env) k hcancel _ _ _ _ _ _ _ _ _ h
        (Nat.zero_le k) rfl (by intro ev hev; simp at hev) hklen hnostop
  · exact decodeLoopAux_cancel env (benchK env) k hcancel _ _ _ _ _ _ _ _ _ h
      (Nat.zero_le k) rfl (by intro ev hev; simp at hev) hklen hnostop

/-- The result of the run used by the witness of C7: one successful step,
then cancellation at iteration 1. -/
def resC7w : LoopResult :=
  ⟨[ObserverEvent.onNext ⟨["x"], [ScoreVal.val 0]⟩, ObserverEvent.onError cancelledError],
    Except.error cancelledError, 1, [⟨true, false, true, false, 0, ["x"]⟩],
    ⟨⟨[[2]], [⟨false, []⟩]⟩, [[]], [[]], ["x"]⟩⟩

/-- Witness for C7 at the concrete cancelled streaming run `envC7w`. -/
theorem c7_cancellation_witness :
    envC7w.cancelAt = some 1 ∧ benchStartOk envC7w = true ∧
    decodeLoop envC7w detW 2 = some resC7w ∧ resC7w.stepLog.length = 1 ∧
    (∀ i ∈ resC7w.stepLog, i.stoppedHere = false) ∧
    (resC7w.result = Except.error cancelledError ∧ resC7w.numSteps = 1 ∧
      (envC7w.isStreaming = true →
        resC7w.events.getLast? = some (ObserverEvent.onError cancelledError) ∧
        (resC7w.events.filter (fun e => e.isErrEv)).length = 1 ∧
        (resC7w.events.filter (fun e => e.isDoneEv)).length = 0 ∧
        (∀ ev ∈ resC7w.events.dropLast, ev.isNextEv = true))) :=
  ⟨rfl, rfl, by decide, by decide, by decide,
    c7_cancellation envC7w detW 2 resC7w 1 rfl rfl (by decide) (by decide)
      (by decide)⟩

/-- C10: whenever the call is not cancelled before the first iteration and
the first step does not error, the loop completes at least one decode step —
even when the executor's current step already exceeds `max_num_tokens` or the
detector already reports all candidates done at entry — because `ShouldStop`
is only evaluated after a step has run. -/
theorem c10_first_step_runs :
    ∀ (env : LoopEnv) (det : DetectorState) (fuel : Nat) (res : LoopResult),
      isCancelled env 0 = false →
      (runOneStep env (StepState.init env.n det) 0).isOk = true →
      benchStartOk env = true →
      decodeLoop env det fuel = some res →
      1 ≤ res.numSteps := by
  intro env det fuel res hc0 hok hbs h
  have haux : ∀ fuel2 : Nat,
      decodeLoopAux env (benchK env) fuel2 (StepState.init env.n det) 0
        (fun _ => "") (fun _ => 0) (fun _ => 0) [] [] = some res →
      1 ≤ res.numSteps := by
    intro fuel2 h2
    rcases fuel2 with _ | fuel2
    · exact absurd h2 (by simp [decodeLoopAux])
    · rw [decodeLoopAux] at h2
      rw [if_neg (by rw [hc0]; exact Bool.false_ne_true)] at h2
      split at h2
      · rename_i e0 heq
        rw [heq] at hok
        simp [Except.isOk, Except.toBool] at hok
      · rename_i allDone st' heq
        by_cases hstop : stoppedOf env (benchK env) allDone 0 = true
        · rw [if_pos hstop] at h2
          injection h2 with h2
          subst h2
          rw [finalizeLoop_numSteps]
        · rw [if_neg hstop] at h2
          exact decodeLoopAux_numSteps_ge env (benchK env) _ _ _ _ _ _ _ _ _ h2
  unfold decodeLoop at h
  split at h
  · rename_i b hb
    split at h
    · rename_i e0 he0
      rw [benchStartOk, hb] at hbs
      simp [he0] at hbs
    · exact haux fuel h
  · exact haux fuel h

/-- The result of the run used by the witness of C10: the detector is done
and the cache bound already exceeded at entry, yet one decode step runs. -/
def resC10w : LoopResult :=
  ⟨[], Except.ok ⟨[""], [ScoreVal.val 0]⟩, 1, [⟨false, true, false, true, 0, [""]⟩],
    ⟨⟨[[2]], [⟨true, [2]⟩]⟩, [[]], [[]], [""]⟩⟩

/-- Witness for C10 at the concrete run `envC10w` with an already-done
detector. -/
theorem c10_first_step_runs_witness :
    isCancelled envC10w 0 = false ∧
    (runOneStep envC10w (StepState.init envC10w.n detDoneW) 0).isOk = true ∧
    benchStartOk envC10w = true ∧
    decodeLoop envC10w detDoneW 1 = some resC10w ∧
    1 ≤ resC10w.numSteps :=
  ⟨rfl, by decide, rfl, by decide,
    c10_first_step_runs envC10w detDoneW 1 resC10w rfl (by decide) rfl (by decide)⟩

/-- C9: every decode entry point leaves the caller-supplied
`StopTokenDetector` unchanged — each takes it by const reference and
`DecodeOneStep` stores a by-value copy, so only the copy is advanced.  The
final conjunct shows the copy really is advanced on a concrete run (the
loop's internal detector differs from the caller's afterwards), so the
unchanged caller object is due to copying, not to the detector being
static. -/
theorem c9_caller_detector_unchanged :
    (∀ (env : LoopEnv) (det : DetectorState) (fuel : Nat),
      (decodeEntry env det fuel).2 = det) ∧
    (∀ (env : LoopEnv) (obsNull : Bool) (det : DetectorState) (fuel : Nat),
      (decodeStreamingEntry env obsNull det fuel).2 = det) ∧
    (∀ (env : LoopEnv) (det : DetectorState) (fuel : Nat),
      (decodeCustomSamplingEntry env det fuel).2 = det) ∧
    (∀ (env : LoopEnv) (obsNull : Bool) (det : DetectorState) (fuel : Nat),
      (decodeCustomSamplingStreamingEntry env obsNull det fuel).2 = det) ∧
    ((decodeEntry envBase detAdv 3).1.map (fun r => r.finalStep.detector) ≠
      some detAdv) := by
  refine ⟨fun env det fuel => rfl, fun env obsNull det fuel => ?_,
    fun env det fuel => rfl, fun env obsNull det fuel => ?_, ?_⟩
  · unfold decodeStreamingEntry
    split <;> rfl
  · unfold decodeCustomSamplingStreamingEntry
    split <;> rfl
  · decide

/-- C2 counterexample: in the trace `envC2x` the single decode step produces
output, the detector is not done, and the cache-exhaustion termination
condition fires at that same step — yet `OnNext` is emitted for it, so an
`on_next` event is emitted for a step at which a termination condition
fires, contrary to the claim. -/
theorem c2_counterexample :
    envC2x.isStreaming = true ∧
    (decodeLoop envC2x detW 3).map
        (fun r => r.stepLog.map (fun i => (i.emittedNext, i.stoppedHere))) =
      some [(true, true)] ∧
    (decodeLoop envC2x detW 3).map
        (fun r => (r.events.filter (fun e => e.isNextEv)).length) = some 1 := by
  refine ⟨rfl, ?_, ?_⟩ <;> decide

/-- C3 counterexample: in the streaming trace `envC3s` the benchmark timer's
`TimeDecodeTurnStart` fails; the error is returned from the function but no
observer event at all — in particular no `on_error` — is delivered first,
contrary to the claim. -/
theorem c3_counterexample :
    envC3s.isStreaming = true ∧
    (decodeLoop envC3s detW 5).map
        (fun r => (r.events, statusCodeOf r.result)) =
      some ([], some StatusCode.internal) := by
  exact ⟨rfl, by decide⟩

end Pipeline
